import Mathlib

/-!
Verification development for the arithmetic opcodes of the JerryScript
virtual machine (file src/jerry-core/vm/opcodes-ecma-arithmetics.c) and
the big-unsigned-integer header (ecma-big-uint.h).

The dispatcher functions do_number_arithmetic, opfunc_addition and
opfunc_unary_operation are translated from the C source.  External
collaborators that live outside the shown sources (object default value,
to-number coercion, to-string coercion, the BigInt engine entry points)
are modelled from the specification; each such definition carries a doc
comment starting with the words Modelled from the spec.
-/

/-- Error kinds distinguished by the error-raising helpers referenced by
the source: ecma_raise_type_error produces a TypeError,
ecma_raise_common_error a plain (common) runtime error; rangeError and
arithmeticError cover the resource and division errors of the engine;
propagated stands for an error signal produced by an external coercion
collaborator and passed through unchanged (the C code returns the bare
ECMA_VALUE_ERROR tag in that case). -/
inductive ErrorKind where
  | typeError
  | commonError
  | rangeError
  | arithmeticError
  | propagated
deriving DecidableEq, Repr

/-- Idealized model of ecma_number_t (IEEE-754 double): not-a-number,
two infinities, or an exact finite value (rounding is not modelled; no
claim under scrutiny depends on rounding). -/
inductive ENumber where
  | nan
  | inf (neg : Bool)
  | fin (q : ℚ)
deriving DecidableEq, Repr

/-- Model of ecma_value_t, the tagged runtime value: a tagged union over
Number, String, BigInt, Boolean, Undefined, Null, Symbol, Object (by
identity) and the error signal.  BigInt payloads are modelled as exact
integers at this level (the reference-counted heap cell view used by the
unary-minus fast path is modelled separately below). -/
inductive ecma_value_t where
  | number (n : ENumber)
  | string (s : String)
  | bigint (i : ℤ)
  | boolean (b : Bool)
  | undefined
  | null
  | symbol (id : Nat)
  | object (id : Nat)
  | error (k : ErrorKind)
deriving DecidableEq, Repr

/-- ECMA_PREFERRED_TYPE_NO and ECMA_PREFERRED_TYPE_NUMBER, the hints
passed to ecma_op_object_default_value by the source. -/
inductive ecma_preferred_type_t where
  | no
  | number
deriving DecidableEq, Repr

/-- ecma_is_value_object. -/
def ecma_is_value_object : ecma_value_t → Bool
  | .object _ => true
  | _ => false

/-- ecma_is_value_string. -/
def ecma_is_value_string : ecma_value_t → Bool
  | .string _ => true
  | _ => false

/-- ecma_is_value_bigint. -/
def ecma_is_value_bigint : ecma_value_t → Bool
  | .bigint _ => true
  | _ => false

/-- ECMA_IS_VALUE_ERROR. -/
def ecma_is_value_error : ecma_value_t → Bool
  | .error _ => true
  | _ => false

/-- Payload accessor for BigInt values (the counterpart of reading the
extended primitive behind a BigInt tagged value); never applied to a
non-BigInt value on the paths translated below. -/
def ecma_get_bigint : ecma_value_t → ℤ
  | .bigint i => i
  | _ => 0

/-- The external object-to-primitive collaborator
ecma_op_object_default_value is a parameter of the model: given an
object identity and a hint it returns a primitive value or an error
signal. -/
abbrev ObjectDefaultValue := Nat → ecma_preferred_type_t → ecma_value_t

/-- IEEE negation on the number model. -/
def ENumber.neg : ENumber → ENumber
  | .nan => .nan
  | .inf s => .inf (!s)
  | .fin q => .fin (-q)

/-- IEEE addition on the number model. -/
def ENumber.add : ENumber → ENumber → ENumber
  | .nan, _ => .nan
  | _, .nan => .nan
  | .inf s, .inf t => if s = t then .inf s else .nan
  | .inf s, .fin _ => .inf s
  | .fin _, .inf t => .inf t
  | .fin a, .fin b => .fin (a + b)

/-- IEEE subtraction on the number model. -/
def ENumber.sub : ENumber → ENumber → ENumber
  | .nan, _ => .nan
  | _, .nan => .nan
  | .inf s, .inf t => if s = t then .nan else .inf s
  | .inf s, .fin _ => .inf s
  | .fin _, .inf t => .inf (!t)
  | .fin a, .fin b => .fin (a - b)

/-- Sign test used by the IEEE multiplication and division models. -/
def ENumber.qNeg (q : ℚ) : Bool := decide (q < 0)

/-- IEEE multiplication on the number model (infinity times zero is
not-a-number; signs combine by exclusive or). -/
def ENumber.mul : ENumber → ENumber → ENumber
  | .nan, _ => .nan
  | _, .nan => .nan
  | .inf s, .inf t => .inf (xor s t)
  | .inf s, .fin b => if b = 0 then .nan else .inf (xor s (ENumber.qNeg b))
  | .fin a, .inf t => if a = 0 then .nan else .inf (xor (ENumber.qNeg a) t)
  | .fin a, .fin b => .fin (a * b)

/-- IEEE division on the number model: a finite nonzero value divided by
zero yields a signed infinity, zero by zero yields not-a-number,
infinity by infinity yields not-a-number, a finite value divided by an
infinity yields zero. -/
def ENumber.div : ENumber → ENumber → ENumber
  | .nan, _ => .nan
  | _, .nan => .nan
  | .inf _, .inf _ => .nan
  | .inf s, .fin b => .inf (xor s (ENumber.qNeg b))
  | .fin _, .inf _ => .fin 0
  | .fin a, .fin b =>
      if b = 0 then (if a = 0 then .nan else .inf (ENumber.qNeg a))
      else .fin (a / b)

/-- Truncation toward zero on rationals, used by the remainder model. -/
def ENumber.truncQ (q : ℚ) : ℤ := if q < 0 then ⌈q⌉ else ⌊q⌋

/-- Modelled from the spec: ecma_op_number_remainder (the number
remainder collaborator, not among the shown sources).  IEEE-754
remainder semantics as stated in the design: the result is not-a-number
when the divisor is zero or the dividend is infinite, a finite dividend
with an infinite divisor is returned unchanged, and otherwise the result
is dividend minus divisor times the quotient truncated toward zero, so
its sign follows the dividend. -/
def ecma_op_number_remainder : ENumber → ENumber → ENumber
  | .nan, _ => .nan
  | _, .nan => .nan
  | .inf _, _ => .nan
  | .fin a, .inf _ => .fin a
  | .fin a, .fin b =>
      if b = 0 then .nan
      else .fin (a - b * (ENumber.truncQ (a / b) : ℚ))

/-- Modelled from the spec: ecma_number_pow (the power collaborator, not
among the shown sources).  Only its routing matters for the claims under
study; the model propagates not-a-number, evaluates integral exponents
exactly and maps the remaining shapes to not-a-number or infinity in an
IEEE-inspired way. -/
def ecma_number_pow : ENumber → ENumber → ENumber
  | _, .nan => .nan
  | .nan, .fin e => if e = 0 then .fin 1 else .nan
  | .nan, .inf _ => .nan
  | .fin a, .fin e =>
      if e.den = 1 then
        (if a = 0 ∧ e.num < 0 then .inf false else .fin (a ^ e.num))
      else .nan
  | .inf _, .fin e =>
      if e = 0 then .fin 1
      else if e > 0 then .inf false
      else .fin 0
  | .fin a, .inf t =>
      if a = 1 ∨ a = -1 then .nan
      else if (if 1 < |a| then !t else t) then .fin 0
      else .inf false
  | .inf _, .inf t => if t then .fin 0 else .inf false

/-- Modelled from the spec: the to-number coercion collaborator used by
the ECMA_OP_TO_NUMBER_TRY_CATCH macro (ecma_op_to_number, not among the
shown sources).  Numbers pass through, booleans map to zero and one,
undefined to not-a-number, null to zero; a BigInt or a Symbol operand
raises a TypeError; strings go through the external textual conversion,
modelled here as an exact decimal parse with non-numeric text mapping to
not-a-number and the empty string to zero. -/
def ecma_op_to_number : ecma_value_t → Except ErrorKind ENumber
  | .number n => .ok n
  | .boolean b => .ok (.fin (if b then 1 else 0))
  | .undefined => .ok .nan
  | .null => .ok (.fin 0)
  | .string s =>
      if s = "" then .ok (.fin 0)
      else if s.all Char.isDigit then .ok (.fin (s.toNat! : ℚ))
      else .ok .nan
  | .bigint _ => .error .typeError
  | .symbol _ => .error .typeError
  | .object _ => .error .typeError
  | .error k => .error k

/-- Modelled from the spec: the textual rendering of a number used by
the to-string collaborator; integral finite values print as decimal
integers, which is all the claims exercise. -/
def numberToString (n : ENumber) : String :=
  match n with
  | .nan => "NaN"
  | .inf s => if s then "-Infinity" else "Infinity"
  | .fin q => if q.den = 1 then toString q.num else toString q.num ++ "/" ++ toString q.den

/-- Modelled from the spec: the to-string coercion collaborator
(ecma_op_to_string, not among the shown sources).  It returns the built
string, or nothing (the C code returns a null pointer after raising an
error) when the value cannot be stringified, as for a Symbol. -/
def ecma_op_to_string : ecma_value_t → Option String
  | .string s => some s
  | .number n => some (numberToString n)
  | .boolean b => some (if b then "true" else "false")
  | .undefined => some "undefined"
  | .null => some "null"
  | .bigint i => some (toString i)
  | .symbol _ => none
  | .object _ => none
  | .error _ => none

/-- Modelled from the spec: ecma_bigint_add_sub (Big-Integer Engine
entry point, not among the shown sources): signed addition or
subtraction of two BigInt values, selected by the third flag (true for
addition). -/
def ecma_bigint_add_sub (left right : ℤ) (is_add : Bool) : ecma_value_t :=
  .bigint (if is_add then left + right else left - right)

/-- Modelled from the spec: ecma_bigint_mul (Big-Integer Engine entry
point, not among the shown sources): signed multiplication, sign the
exclusive or of the operand signs. -/
def ecma_bigint_mul (left right : ℤ) : ecma_value_t :=
  .bigint (left * right)

/-- Modelled from the spec: ecma_bigint_div_mod (Big-Integer Engine
entry point, not among the shown sources): quotient or remainder of the
magnitudes selected by the mode flag, sign of the quotient the exclusive
or of the operand signs, sign of the remainder the sign of the dividend
(truncated division); division by the zero BigInt is an arithmetic
error. -/
def ecma_bigint_div_mod (left right : ℤ) (is_mod : Bool) : ecma_value_t :=
  if right = 0 then .error .arithmeticError
  else .bigint (if is_mod then Int.tmod left right else Int.tdiv left right)

/-- number_arithmetic_op, the operation selector of
do_number_arithmetic. -/
inductive number_arithmetic_op where
  | subtraction
  | multiplication
  | division
  | remainder
  | exponentiation
deriving DecidableEq, Repr

/-- The numeric body of do_number_arithmetic after object coercion
(source lines 81 to 161): when at least one operand is not a BigInt both
operands are coerced to Number and the operation is computed in double
arithmetic; when both are BigInt the call is routed to the Big-Integer
Engine, with exponentiation falling to the default branch that raises
the common Not supported BigInt operation error. -/
def do_number_arithmetic_values (op : number_arithmetic_op)
    (left_value right_value : ecma_value_t) : ecma_value_t :=
  if !ecma_is_value_bigint left_value || !ecma_is_value_bigint right_value then
    match ecma_op_to_number left_value with
    | .error k => .error k
    | .ok num_left =>
      match ecma_op_to_number right_value with
      | .error k => .error k
      | .ok num_right =>
        let result : ENumber :=
          match op with
          | .subtraction => ENumber.sub num_left num_right
          | .multiplication => ENumber.mul num_left num_right
          | .division => ENumber.div num_left num_right
          | .remainder => ecma_op_number_remainder num_left num_right
          | .exponentiation => ecma_number_pow num_left num_right
        .number result
  else
    match op with
    | .subtraction =>
        ecma_bigint_add_sub (ecma_get_bigint left_value) (ecma_get_bigint right_value) false
    | .multiplication =>
        ecma_bigint_mul (ecma_get_bigint left_value) (ecma_get_bigint right_value)
    | .division =>
        ecma_bigint_div_mod (ecma_get_bigint left_value) (ecma_get_bigint right_value) false
    | .remainder =>
        ecma_bigint_div_mod (ecma_get_bigint left_value) (ecma_get_bigint right_value) true
    | _ => .error .commonError

/-- do_number_arithmetic (source lines 45 to 174), with the object
default-value collaborator passed as a parameter.  An Object operand is
coerced with the Number hint, the left operand first; an error signal
from the left coercion returns immediately and the right coercion is
never attempted; an error from the right coercion is returned after the
left intermediate is released (release bookkeeping is modelled by the
traced variant below, the value result is identical). -/
def do_number_arithmetic (dv : ObjectDefaultValue) (op : number_arithmetic_op)
    (left_value right_value : ecma_value_t) : ecma_value_t :=
  let step2 := fun (lv : ecma_value_t) =>
    match right_value with
    | .object obj_p =>
        let rv := dv obj_p .number
        if ecma_is_value_error rv then rv
        else do_number_arithmetic_values op lv rv
    | rv => do_number_arithmetic_values op lv rv
  match left_value with
  | .object obj_p =>
      let lv := dv obj_p .number
      if ecma_is_value_error lv then lv
      else step2 lv
  | lv => step2 lv

/-- The body of opfunc_addition after object coercion (source lines 219
to 276): if either primitive is a String both are coerced to String and
concatenated (a failed coercion returns the bare error signal); else if
both are BigInt the engine addition runs; else both are coerced to
Number and added. -/
def opfunc_addition_values (left_value right_value : ecma_value_t) : ecma_value_t :=
  if ecma_is_value_string left_value || ecma_is_value_string right_value then
    match ecma_op_to_string left_value with
    | none => .error .propagated
    | some string1_p =>
      match ecma_op_to_string right_value with
      | none => .error .propagated
      | some string2_p => .string (string1_p ++ string2_p)
  else if ecma_is_value_bigint left_value && ecma_is_value_bigint right_value then
    ecma_bigint_add_sub (ecma_get_bigint left_value) (ecma_get_bigint right_value) true
  else
    match ecma_op_to_number left_value with
    | .error k => .error k
    | .ok num_left =>
      match ecma_op_to_number right_value with
      | .error k => .error k
      | .ok num_right => .number (ENumber.add num_left num_right)

/-- opfunc_addition (source lines 184 to 289), with the object
default-value collaborator passed as a parameter; Objects are coerced
with no preferred type, left first, with the same fail-fast ordering as
do_number_arithmetic. -/
def opfunc_addition (dv : ObjectDefaultValue)
    (left_value right_value : ecma_value_t) : ecma_value_t :=
  let step2 := fun (lv : ecma_value_t) =>
    match right_value with
    | .object obj_p =>
        let rv := dv obj_p .no
        if ecma_is_value_error rv then rv
        else opfunc_addition_values lv rv
    | rv => opfunc_addition_values lv rv
  match left_value with
  | .object obj_p =>
      let lv := dv obj_p .no
      if ecma_is_value_error lv then lv
      else step2 lv
  | lv => step2 lv

/-- The body of opfunc_unary_operation after object coercion (source
lines 317 to 354): a non-BigInt operand is coerced to Number and plus or
minus is applied; unary plus on BigInt raises a TypeError; unary minus
on BigInt negates through the engine (the reference-count behaviour of
the zero fast path is modelled separately on the heap view below). -/
def opfunc_unary_operation_values (left_value : ecma_value_t) (is_plus : Bool) : ecma_value_t :=
  if !ecma_is_value_bigint left_value then
    match ecma_op_to_number left_value with
    | .error k => .error k
    | .ok num_var_value =>
        .number (if is_plus then num_var_value else ENumber.neg num_var_value)
  else
    if is_plus then .error .typeError
    else
      let i := ecma_get_bigint left_value
      if i = 0 then .bigint i else .bigint (-i)

/-- opfunc_unary_operation (source lines 299 to 362), with the object
default-value collaborator passed as a parameter; an Object operand is
coerced with the Number hint and a coercion error returns
immediately. -/
def opfunc_unary_operation (dv : ObjectDefaultValue)
    (left_value : ecma_value_t) (is_plus : Bool) : ecma_value_t :=
  match left_value with
  | .object obj_p =>
      let lv := dv obj_p .number
      if ecma_is_value_error lv then lv
      else opfunc_unary_operation_values lv is_plus
  | lv => opfunc_unary_operation_values lv is_plus

/-- Operand side, used by the event trace. -/
inductive Side where
  | lhs
  | rhs
deriving DecidableEq, Repr

/-- Observable resource events of the dispatcher: a call into the
object default-value collaborator, an ecma_free_value on a coerced
intermediate, and an ecma_deref_ecma_string on a built string. -/
inductive Ev where
  | dvCall (s : Side) (hint : ecma_preferred_type_t)
  | free (v : ecma_value_t)
  | derefStr (s : String)
deriving DecidableEq, Repr

/-- Emit a release event when the ownership flag is set; this is the
trace image of the free_left_value and free_right_value bookkeeping of
the source. -/
def freesIf (b : Bool) (v : ecma_value_t) : List Ev :=
  if b then [Ev.free v] else []

/-- do_number_arithmetic with its resource events made explicit, in
source order: the returned list records each collaborator call and each
release exactly where the C code performs it. -/
def do_number_arithmetic_tr (dv : ObjectDefaultValue) (op : number_arithmetic_op)
    (left_value right_value : ecma_value_t) : ecma_value_t × List Ev :=
  let finish := fun (lv rv : ecma_value_t) (pre : List Ev) (fl fr : Bool) =>
    (do_number_arithmetic_values op lv rv, pre ++ freesIf fl lv ++ freesIf fr rv)
  let step2 := fun (lv : ecma_value_t) (pre : List Ev) (fl : Bool) =>
    match right_value with
    | .object obj_p =>
        let rv := dv obj_p .number
        let pre2 := pre ++ [Ev.dvCall .rhs .number]
        if ecma_is_value_error rv then (rv, pre2 ++ freesIf fl lv)
        else finish lv rv pre2 fl true
    | rv => finish lv rv pre fl false
  match left_value with
  | .object obj_p =>
      let lv := dv obj_p .number
      if ecma_is_value_error lv then (lv, [Ev.dvCall .lhs .number])
      else step2 lv [Ev.dvCall .lhs .number] true
  | lv => step2 lv [] false

/-- The body of opfunc_addition with resource events made explicit: the
string branch releases both coerced operands and dereferences the first
built string before propagating a failure of the second to-string
coercion (in the source order: right operand, left operand, first
string); the success path dereferences the second string after the
concatenation and then releases the coerced operands. -/
def opfunc_addition_values_tr (lv rv : ecma_value_t) (fl fr : Bool) :
    ecma_value_t × List Ev :=
  if ecma_is_value_string lv || ecma_is_value_string rv then
    match ecma_op_to_string lv with
    | none => (.error .propagated, freesIf fl lv ++ freesIf fr rv)
    | some string1_p =>
      match ecma_op_to_string rv with
      | none =>
          (.error .propagated,
           freesIf fr rv ++ freesIf fl lv ++ [Ev.derefStr string1_p])
      | some string2_p =>
          (.string (string1_p ++ string2_p),
           [Ev.derefStr string2_p] ++ freesIf fl lv ++ freesIf fr rv)
  else if ecma_is_value_bigint lv && ecma_is_value_bigint rv then
    (ecma_bigint_add_sub (ecma_get_bigint lv) (ecma_get_bigint rv) true,
     freesIf fl lv ++ freesIf fr rv)
  else
    ((match ecma_op_to_number lv with
      | .error k => .error k
      | .ok num_left =>
        match ecma_op_to_number rv with
        | .error k => .error k
        | .ok num_right => .number (ENumber.add num_left num_right)),
     freesIf fl lv ++ freesIf fr rv)

/-- opfunc_addition with its resource events made explicit, in source
order. -/
def opfunc_addition_tr (dv : ObjectDefaultValue)
    (left_value right_value : ecma_value_t) : ecma_value_t × List Ev :=
  let finish := fun (lv rv : ecma_value_t) (pre : List Ev) (fl fr : Bool) =>
    let r := opfunc_addition_values_tr lv rv fl fr
    (r.1, pre ++ r.2)
  let step2 := fun (lv : ecma_value_t) (pre : List Ev) (fl : Bool) =>
    match right_value with
    | .object obj_p =>
        let rv := dv obj_p .no
        let pre2 := pre ++ [Ev.dvCall .rhs .no]
        if ecma_is_value_error rv then (rv, pre2 ++ freesIf fl lv)
        else finish lv rv pre2 fl true
    | rv => finish lv rv pre fl false
  match left_value with
  | .object obj_p =>
      let lv := dv obj_p .no
      if ecma_is_value_error lv then (lv, [Ev.dvCall .lhs .no])
      else step2 lv [Ev.dvCall .lhs .no] true
  | lv => step2 lv [] false

/-- opfunc_unary_operation with its resource events made explicit, in
source order. -/
def opfunc_unary_operation_tr (dv : ObjectDefaultValue)
    (left_value : ecma_value_t) (is_plus : Bool) : ecma_value_t × List Ev :=
  match left_value with
  | .object obj_p =>
      let lv := dv obj_p .number
      if ecma_is_value_error lv then (lv, [Ev.dvCall .lhs .number])
      else (opfunc_unary_operation_values lv is_plus,
            [Ev.dvCall .lhs .number, Ev.free lv])
  | lv => (opfunc_unary_operation_values lv is_plus, [])

/-- The multiset of values released by a trace. -/
def freedValues (tr : List Ev) : Multiset ecma_value_t :=
  Multiset.ofList (tr.filterMap (fun e =>
    match e with
    | Ev.free v => some v
    | _ => none))


/-- Heap-cell view of a BigInt extended primitive: a reference count,
a sign bit and the limb array of the magnitude (least significant limb
first, 32-bit limbs, byte length four times the limb count). -/
structure ecma_extended_primitive_t where
  refs : Nat
  sign : Bool
  digits : List Nat
deriving DecidableEq, Repr

/-- A heap of BigInt cells; the position in the list is the cell
identity (the pointer), a missing cell is a freed or never-allocated
slot. -/
abbrev BigIntHeap := List (Option ecma_extended_primitive_t)

/-- Look up a cell by identity. -/
def heapGet (h : BigIntHeap) (id : Nat) : Option ecma_extended_primitive_t :=
  h.getD id none

/-- ECMA_BIGINT_GET_SIZE: the byte length of the magnitude, four bytes
per limb (modelled from its uses in the shown sources; the defining
header is not among them). -/
def ECMA_BIGINT_GET_SIZE (p : ecma_extended_primitive_t) : Nat :=
  4 * p.digits.length

/-- ecma_ref_extended_primitive: increment the reference count of the
cell. -/
def ecma_ref_extended_primitive (h : BigIntHeap) (id : Nat) : BigIntHeap :=
  match heapGet h id with
  | some p => h.set id (some { p with refs := p.refs + 1 })
  | none => h

/-- Modelled from the spec: ecma_bigint_negate (Big-Integer Engine entry
point, not among the shown sources): allocate a fresh cell whose sign is
flipped and whose digits are identical to the input, owned by the caller
with one reference. -/
def ecma_bigint_negate (h : BigIntHeap) (left_p : ecma_extended_primitive_t) :
    BigIntHeap × Nat :=
  (h ++ [some { refs := 1, sign := !left_p.sign, digits := left_p.digits }], h.length)

/-- The unary-minus-on-BigInt branch of opfunc_unary_operation (source
lines 339 to 352) on the heap view: when the magnitude size is zero the
same cell is returned with its reference count incremented, otherwise
the negation allocates a fresh cell. -/
def opfunc_unary_minus_bigint (h : BigIntHeap) (left_value : Nat) : BigIntHeap × Nat :=
  match heapGet h left_value with
  | none => (h, left_value)
  | some left_p =>
      if ECMA_BIGINT_GET_SIZE left_p = 0 then
        (ecma_ref_extended_primitive h left_value, left_value)
      else
        ecma_bigint_negate h left_p

/-- ECMA_BIGINT_MAX_SIZE (ecma-big-uint.h line 26): the limit of BigUInt
memory allocation. -/
def ECMA_BIGINT_MAX_SIZE : Nat := 0x10000

/-- A big-unsigned-integer magnitude: 32-bit limbs least significant
first. -/
abbrev BigUIntMagnitude := List Nat

/-- Byte length of a magnitude, four bytes per limb. -/
def byteSize (m : BigUIntMagnitude) : Nat := 4 * m.length

/-- Numeric value of a magnitude (limbs reduced to their 32-bit
range). -/
def magValue (m : BigUIntMagnitude) : Nat :=
  m.foldr (fun d acc => d % 2 ^ 32 + 2 ^ 32 * acc) 0

/-- Canonicalization: strip the leading (most significant) zero
limbs. -/
def canonicalize (m : BigUIntMagnitude) : BigUIntMagnitude :=
  (m.reverse.dropWhile (fun d => d = 0)).reverse

/-- Decompose a natural number into 32-bit limbs, least significant
first. -/
def natToLimbs (n : Nat) : BigUIntMagnitude :=
  if h : n = 0 then []
  else n % 2 ^ 32 :: natToLimbs (n / 2 ^ 32)
decreasing_by
  exact Nat.div_lt_self (Nat.pos_of_ne_zero h) (by norm_num)

/-- Modelled from the spec: ecma_bigint_create (Big-Integer Engine,
not among the shown sources): allocate a zero-initialized magnitude of
the given byte size, which must be a multiple of the limb width; the
allocation fails when the size exceeds ECMA_BIGINT_MAX_SIZE. -/
def ecma_bigint_create (size : Nat) : Option BigUIntMagnitude :=
  if size % 4 ≠ 0 then none
  else if ECMA_BIGINT_MAX_SIZE < size then none
  else some (List.replicate (size / 4) 0)

/-- Modelled from the spec: ecma_big_uint_extend (Big-Integer Engine,
not among the shown sources): return a magnitude one limb larger with
the given new most significant limb; the growth goes through the
allocator and fails past the maximum size. -/
def ecma_big_uint_extend (value : BigUIntMagnitude) (digit : Nat) :
    Option BigUIntMagnitude :=
  match ecma_bigint_create (byteSize value + 4) with
  | none => none
  | some _ => some (value ++ [digit])

/-- Modelled from the spec: ecma_big_uint_mul (Big-Integer Engine, not
among the shown sources): schoolbook multiplication into a result
allocation of width size of the first plus size of the second operand,
canonicalized; the allocation fails past the maximum size. -/
def ecma_big_uint_mul (a b : BigUIntMagnitude) : Option BigUIntMagnitude :=
  match ecma_bigint_create (byteSize a + byteSize b) with
  | none => none
  | some _ => some (canonicalize (natToLimbs (magValue a * magValue b)))

/-- Modelled from the spec: ecma_big_uint_shift_left (Big-Integer
Engine, not among the shown sources): shift left by an arbitrary bit
count, widening the allocation by the shifted whole limbs plus one;
the allocation fails past the maximum size. -/
def ecma_big_uint_shift_left (v : BigUIntMagnitude) (bits : Nat) :
    Option BigUIntMagnitude :=
  match ecma_bigint_create (byteSize v + 4 * (bits / 32 + 1)) with
  | none => none
  | some _ => some (canonicalize (natToLimbs (magValue v * 2 ^ bits)))

/-- sizeof(ecma_bigint_digit_t): the limb width in bytes (the limb type
is a 32-bit unsigned integer). -/
def sizeof_ecma_bigint_digit_t : Nat := 4

/-- ECMA_BIGINT_SIZE_IS_ODD (ecma-big-uint.h lines 50 to 54): bitwise
AND of the byte size with the limb width, compared against zero. -/
def ECMA_BIGINT_SIZE_IS_ODD (size : Nat) : Bool :=
  (size &&& sizeof_ecma_bigint_digit_t) != 0

/-- A primitive operand that is neither a BigInt nor a String: a
Number, Boolean, Undefined, Null or Symbol value. -/
def isNonBigIntNonStringPrimitive : ecma_value_t → Bool
  | .number _ => true
  | .boolean _ => true
  | .undefined => true
  | .null => true
  | .symbol _ => true
  | _ => false

/-- The heap-allocated intermediate obtained by coercing one operand:
the singleton of the collaborator result when the operand is an Object
and the coercion succeeded, empty otherwise. -/
def coercedIfOk (dv : ObjectDefaultValue) (hint : ecma_preferred_type_t)
    (v : ecma_value_t) : Multiset ecma_value_t :=
  match v with
  | .object o => if ecma_is_value_error (dv o hint) then 0 else {dv o hint}
  | _ => 0

/-- All heap-allocated coerced intermediates produced by a binary
dispatcher run: the left one when the left operand is an Object whose
coercion succeeded, plus the right one, which is only ever attempted
when the left coercion did not fail. -/
def coercedOf (dv : ObjectDefaultValue) (hint : ecma_preferred_type_t)
    (l r : ecma_value_t) : Multiset ecma_value_t :=
  match l with
  | .object o =>
      if ecma_is_value_error (dv o hint) then 0
      else {dv o hint} + coercedIfOk dv hint r
  | _ => coercedIfOk dv hint r

/-- Whether an event is a call into the object default-value
collaborator. -/
def isDvCall : Ev → Bool
  | .dvCall _ _ => true
  | _ => false

/-- The collaborator calls of a trace, in order. -/
def dvCalls (tr : List Ev) : List Ev := tr.filter isDvCall

/-- For non-Object operands the object-coercion phase of
do_number_arithmetic is the identity and the run is its numeric
body. -/
theorem do_number_arithmetic_nonobject (dv : ObjectDefaultValue)
    (op : number_arithmetic_op) (l r : ecma_value_t)
    (hl : ecma_is_value_object l = false) (hr : ecma_is_value_object r = false) :
    do_number_arithmetic dv op l r = do_number_arithmetic_values op l r := by
  cases l <;> cases r <;> simp_all [do_number_arithmetic, ecma_is_value_object]

/-- For non-Object operands the object-coercion phase of
opfunc_addition is the identity and the run is its body. -/
theorem opfunc_addition_nonobject (dv : ObjectDefaultValue)
    (l r : ecma_value_t)
    (hl : ecma_is_value_object l = false) (hr : ecma_is_value_object r = false) :
    opfunc_addition dv l r = opfunc_addition_values l r := by
  cases l <;> cases r <;> simp_all [opfunc_addition, ecma_is_value_object]

/-- When at least one operand is not a BigInt and both to-number
coercions succeed, the numeric body computes the selected double
operation. -/
theorem do_number_arithmetic_values_num (op : number_arithmetic_op)
    (l r : ecma_value_t) (a b : ENumber)
    (hg : (!ecma_is_value_bigint l || !ecma_is_value_bigint r) = true)
    (ha : ecma_op_to_number l = .ok a) (hb : ecma_op_to_number r = .ok b) :
    do_number_arithmetic_values op l r =
      .number (match op with
        | .subtraction => ENumber.sub a b
        | .multiplication => ENumber.mul a b
        | .division => ENumber.div a b
        | .remainder => ecma_op_number_remainder a b
        | .exponentiation => ecma_number_pow a b) := by
  simp [do_number_arithmetic_values, hg, ha, hb]

/-- C2: for operands that are both BigInt, the dispatcher routes to the
Big-Integer Engine exactly as: subtraction calls ecma_bigint_add_sub
with the addition flag false, addition calls ecma_bigint_add_sub with
the addition flag true, multiplication calls ecma_bigint_mul, division
calls ecma_bigint_div_mod with the mod flag false, remainder calls
ecma_bigint_div_mod with the mod flag true. -/
theorem claim_C2 (dv : ObjectDefaultValue) (l r : ℤ) :
    do_number_arithmetic dv .subtraction (.bigint l) (.bigint r)
        = ecma_bigint_add_sub l r false
  ∧ opfunc_addition dv (.bigint l) (.bigint r) = ecma_bigint_add_sub l r true
  ∧ do_number_arithmetic dv .multiplication (.bigint l) (.bigint r)
        = ecma_bigint_mul l r
  ∧ do_number_arithmetic dv .division (.bigint l) (.bigint r)
        = ecma_bigint_div_mod l r false
  ∧ do_number_arithmetic dv .remainder (.bigint l) (.bigint r)
        = ecma_bigint_div_mod l r true :=
  ⟨rfl, rfl, rfl, rfl, rfl⟩

/-- C6 counterexample: exponentiation of two concrete BigInt operands
raises the common (plain) runtime error, whose kind is not
TypeError. -/
theorem claim_C6_counterexample :
    do_number_arithmetic (fun _ _ => .undefined) .exponentiation
        (.bigint 2) (.bigint 3) = .error .commonError
    ∧ ErrorKind.commonError ≠ ErrorKind.typeError :=
  ⟨rfl, by decide⟩

/-- C6 (amended): for every pair of BigInt operands, exponentiation
performs no arithmetic and raises the common Not supported BigInt
operation runtime error (a plain error, not a TypeError). -/
theorem claim_C6 (dv : ObjectDefaultValue) (l r : ℤ) :
    do_number_arithmetic dv .exponentiation (.bigint l) (.bigint r)
      = .error .commonError :=
  rfl

/-- C7: unary plus on a BigInt operand, including one obtained by
coercing an Object with the numeric hint, always raises a TypeError. -/
theorem claim_C7 (dv : ObjectDefaultValue) (v : ecma_value_t)
    (h : ecma_is_value_bigint v = true
       ∨ ∃ o, v = .object o ∧ ecma_is_value_bigint (dv o .number) = true) :
    opfunc_unary_operation dv v true = .error .typeError := by
  rcases h with h | ⟨o, rfl, h⟩
  · cases v <;> simp_all [opfunc_unary_operation, opfunc_unary_operation_values,
      ecma_is_value_bigint]
  · cases hdv : dv o .number <;>
      simp_all [opfunc_unary_operation, opfunc_unary_operation_values,
        ecma_is_value_bigint, ecma_is_value_error]

/-- C7 witness: unary plus on the BigInt seven raises a TypeError. -/
theorem claim_C7_witness :
    opfunc_unary_operation (fun _ _ => .undefined) (.bigint 7) true
      = .error .typeError :=
  claim_C7 (fun _ _ => .undefined) (.bigint 7) (Or.inl (by decide))

/-- The bitwise AND of four times a number with four is four exactly
when that number is odd. -/
theorem land_four_mul (k : ℕ) : (4 * k) &&& 4 = (if k % 2 = 1 then 4 else 0) := by
  have h := Nat.and_two_pow (4 * k) 2
  norm_num at h
  rw [h, Nat.testBit_to_div_mod]
  rcases Nat.mod_two_eq_zero_or_one k with hk | hk <;>
    simp [Nat.mul_div_cancel_left, hk]

/-- C10: for every byte size that is a multiple of the four-byte limb
width, ECMA_BIGINT_SIZE_IS_ODD holds exactly when the limb count (the
size divided by four) is odd; it does not test whether the size itself
is odd, as its documentation comment states: at size four it returns
true although four is even. -/
theorem claim_C10 :
    (∀ size, 4 ∣ size →
      (ECMA_BIGINT_SIZE_IS_ODD size = true ↔ Odd (size / 4)))
    ∧ (ECMA_BIGINT_SIZE_IS_ODD 4 = true ∧ ¬ Odd (4 : ℕ)) := by
  constructor
  · rintro size ⟨k, rfl⟩
    simp only [ECMA_BIGINT_SIZE_IS_ODD, sizeof_ecma_bigint_digit_t]
    rw [land_four_mul, Nat.mul_div_cancel_left k (by norm_num)]
    rcases Nat.mod_two_eq_zero_or_one k with hk | hk <;>
      simp [hk, Nat.odd_iff]
  · exact ⟨by decide, by decide⟩

/-- C10 witness: twelve bytes is three limbs, an odd limb count, and
the macro returns true there. -/
theorem claim_C10_witness :
    (ECMA_BIGINT_SIZE_IS_ODD 12 = true ↔ Odd (12 / 4 : ℕ))
    ∧ ECMA_BIGINT_SIZE_IS_ODD 12 = true :=
  ⟨claim_C10.1 12 (by norm_num), by decide⟩

/-- Looking up a heap at its own length misses. -/
theorem heapGet_length (h : BigIntHeap) : heapGet h h.length = none := by
  induction h with
  | nil => rfl
  | cons a t ih => simp [heapGet, List.length_cons, List.getD_cons_succ, ih]

/-- Looking up the freshly appended cell succeeds. -/
theorem heapGet_append_singleton (h : BigIntHeap)
    (c : Option ecma_extended_primitive_t) :
    heapGet (h ++ [c]) h.length = c := by
  induction h with
  | nil => rfl
  | cons a t ih => simp [heapGet, List.length_cons, List.getD_cons_succ, ih]

/-- Updating a live slot is observable at that slot. -/
theorem heapGet_set (h : BigIntHeap) (id : Nat)
    (v : Option ecma_extended_primitive_t) (hid : id < h.length) :
    heapGet (h.set id v) id = v := by
  induction h generalizing id with
  | nil => simp at hid
  | cons a t ih =>
    cases id with
    | zero => rfl
    | succ n =>
        simpa [heapGet, List.getD_cons_succ] using ih n (by simpa using hid)

/-- A successful lookup implies the identity is inside the heap. -/
theorem heapGet_lt_length (h : BigIntHeap) (id : Nat)
    (p : ecma_extended_primitive_t) (hid : heapGet h id = some p) :
    id < h.length := by
  by_contra hlt
  push_neg at hlt
  induction h generalizing id with
  | nil => exact Option.noConfusion hid
  | cons a t ih =>
    cases id with
    | zero => simp at hlt
    | succ n =>
        exact ih n (by simpa [heapGet, List.getD_cons_succ] using hid)
          (by simpa using hlt)

/-- C8: on the heap view, unary minus of the zero BigInt (empty
magnitude) returns the very same cell identity with its reference count
incremented, while unary minus of a non-zero BigInt returns a freshly
allocated cell, distinct from the input, holding the flipped sign and
identical digits. -/
theorem claim_C8 (h : BigIntHeap) (id : Nat) (p : ecma_extended_primitive_t)
    (hid : heapGet h id = some p) :
    (p.digits = [] →
        (opfunc_unary_minus_bigint h id).2 = id ∧
        heapGet (opfunc_unary_minus_bigint h id).1 id
          = some { p with refs := p.refs + 1 })
    ∧ (p.digits ≠ [] →
        heapGet h (opfunc_unary_minus_bigint h id).2 = none ∧
        (opfunc_unary_minus_bigint h id).2 ≠ id ∧
        heapGet (opfunc_unary_minus_bigint h id).1
            (opfunc_unary_minus_bigint h id).2
          = some { refs := 1, sign := !p.sign, digits := p.digits }) := by
  have hlt := heapGet_lt_length h id p hid
  constructor
  · intro hz
    have hred : opfunc_unary_minus_bigint h id = (ecma_ref_extended_primitive h id, id) := by
      simp [opfunc_unary_minus_bigint, hid, ECMA_BIGINT_GET_SIZE, hz]
    rw [hred]
    refine ⟨rfl, ?_⟩
    simp only [ecma_ref_extended_primitive, hid]
    exact heapGet_set h id _ hlt
  · intro hz
    have hred : opfunc_unary_minus_bigint h id
        = (h ++ [some { refs := 1, sign := !p.sign, digits := p.digits }], h.length) := by
      simp [opfunc_unary_minus_bigint, hid, ECMA_BIGINT_GET_SIZE, hz,
        ecma_bigint_negate]
    rw [hred]
    exact ⟨heapGet_length h, by omega, heapGet_append_singleton h _⟩

/-- C8 witness: negating a concrete zero cell returns the same identity
with the reference count bumped from one to two. -/
theorem claim_C8_witness :
    (opfunc_unary_minus_bigint [some ⟨1, false, []⟩] 0).2 = 0 ∧
    heapGet (opfunc_unary_minus_bigint [some ⟨1, false, []⟩] 0).1 0
      = some ⟨2, false, []⟩ :=
  (claim_C8 [some ⟨1, false, []⟩] 0 ⟨1, false, []⟩ rfl).1 rfl

/-- A magnitude of a given limb count is numerically below the
corresponding power of two. -/
theorem magValue_lt (m : BigUIntMagnitude) :
    magValue m < 2 ^ (32 * m.length) := by
  induction m with
  | nil => simp [magValue]
  | cons d t ih =>
    have hd : d % 2 ^ 32 < 2 ^ 32 := Nat.mod_lt _ (by norm_num)
    have h1 : magValue (d :: t) < 2 ^ 32 * (magValue t + 1) := by
      simp only [magValue, List.foldr_cons] at *
      omega
    calc magValue (d :: t) < 2 ^ 32 * (magValue t + 1) := h1
      _ ≤ 2 ^ 32 * 2 ^ (32 * t.length) := Nat.mul_le_mul_left _ ih
      _ = 2 ^ (32 * (d :: t).length) := by
          rw [← pow_add, List.length_cons]; congr 1; ring

/-- The limb decomposition of a number below a power of two has at most
that many limbs. -/
theorem natToLimbs_length_le (k : Nat) : ∀ n, n < 2 ^ (32 * k) →
    (natToLimbs n).length ≤ k := by
  induction k with
  | zero =>
    intro n hn
    have h0 : n = 0 := by simpa using hn
    subst h0
    simp [natToLimbs]
  | succ k ih =>
    intro n hn
    by_cases h0 : n = 0
    · subst h0; simp [natToLimbs]
    · rw [natToLimbs, dif_neg h0]
      have hdiv : n / 2 ^ 32 < 2 ^ (32 * k) := by
        rw [Nat.div_lt_iff_lt_mul (by norm_num : 0 < (2 : ℕ) ^ 32)]
        calc n < 2 ^ (32 * (k + 1)) := hn
          _ = 2 ^ (32 * k) * 2 ^ 32 := by ring
      have := ih _ hdiv
      simp only [List.length_cons]
      omega

/-- Canonicalization never lengthens a magnitude. -/
theorem canonicalize_length_le (m : BigUIntMagnitude) :
    (canonicalize m).length ≤ m.length := by
  calc (canonicalize m).length
      = (m.reverse.dropWhile (fun d => d = 0)).length := by
        simp [canonicalize]
    _ ≤ m.reverse.length := (List.dropWhile_sublist _).length_le
    _ = m.length := List.length_reverse m

/-- A successful allocation yields a magnitude of exactly the requested
byte size, within the maximum. -/
theorem ecma_bigint_create_some (size : Nat) (m : BigUIntMagnitude)
    (hm : ecma_bigint_create size = some m) :
    byteSize m = size ∧ byteSize m ≤ ECMA_BIGINT_MAX_SIZE := by
  unfold ecma_bigint_create at hm
  split_ifs at hm with h1 h2
  cases hm
  have h4 : (4 : ℕ) ∣ size := Nat.dvd_of_mod_eq_zero (by omega)
  constructor
  · simp [byteSize, List.length_replicate, Nat.mul_div_cancel' h4]
  · simp only [byteSize, List.length_replicate, Nat.mul_div_cancel' h4]
    omega

/-- An over-limit allocation request fails. -/
theorem ecma_bigint_create_none (size : Nat)
    (hs : ECMA_BIGINT_MAX_SIZE < size) : ecma_bigint_create size = none := by
  unfold ecma_bigint_create
  split_ifs <;> rfl

/-- C9: every magnitude produced by the engine allocation and growth
operations (create, extend by one limb, multiply, shift left) has byte
length at most ECMA_BIGINT_MAX_SIZE, and a growth whose allocation
request exceeds that maximum fails (returns nothing) instead of
wrapping or truncating. -/
theorem claim_C9 :
    (∀ size m, ecma_bigint_create size = some m →
        byteSize m ≤ ECMA_BIGINT_MAX_SIZE)
  ∧ (∀ size, ECMA_BIGINT_MAX_SIZE < size → ecma_bigint_create size = none)
  ∧ (∀ v d m, ecma_big_uint_extend v d = some m →
        byteSize m ≤ ECMA_BIGINT_MAX_SIZE)
  ∧ (∀ v d, ECMA_BIGINT_MAX_SIZE < byteSize v + 4 →
        ecma_big_uint_extend v d = none)
  ∧ (∀ a b m, ecma_big_uint_mul a b = some m →
        byteSize m ≤ ECMA_BIGINT_MAX_SIZE)
  ∧ (∀ a b, ECMA_BIGINT_MAX_SIZE < byteSize a + byteSize b →
        ecma_big_uint_mul a b = none)
  ∧ (∀ v bits m, ecma_big_uint_shift_left v bits = some m →
        byteSize m ≤ ECMA_BIGINT_MAX_SIZE)
  ∧ (∀ v bits, ECMA_BIGINT_MAX_SIZE < byteSize v + 4 * (bits / 32 + 1) →
        ecma_big_uint_shift_left v bits = none) := by
  refine ⟨?_, ?_, ?_, ?_, ?_, ?_, ?_, ?_⟩
  · intro size m hm
    exact (ecma_bigint_create_some size m hm).2
  · intro size hs
    exact ecma_bigint_create_none size hs
  · intro v d m hm
    unfold ecma_big_uint_extend at hm
    cases hc : ecma_bigint_create (byteSize v + 4) with
    | none => rw [hc] at hm; exact Option.noConfusion hm
    | some buf =>
        rw [hc] at hm
        cases hm
        have := (ecma_bigint_create_some _ _ hc).1
        have h2 := (ecma_bigint_create_some _ _ hc).2
        simp only [byteSize, List.length_append, List.length_cons,
          List.length_nil] at *
        omega
  · intro v d hs
    unfold ecma_big_uint_extend
    rw [ecma_bigint_create_none _ hs]
  · intro a b m hm
    unfold ecma_big_uint_mul at hm
    cases hc : ecma_bigint_create (byteSize a + byteSize b) with
    | none => rw [hc] at hm; exact Option.noConfusion hm
    | some buf =>
        rw [hc] at hm
        cases hm
        have hbuf := (ecma_bigint_create_some _ _ hc).1
        have hmax := (ecma_bigint_create_some _ _ hc).2
        have hprod : magValue a * magValue b
            < 2 ^ (32 * (a.length + b.length)) := by
          calc magValue a * magValue b
              < 2 ^ (32 * a.length) * 2 ^ (32 * b.length) :=
                mul_lt_mul' (le_of_lt (magValue_lt a)) (magValue_lt b)
                  (Nat.zero_le _) (Nat.pos_pow_of_pos _ (by norm_num))
            _ = 2 ^ (32 * (a.length + b.length)) := by
                rw [← pow_add]; congr 1; ring
        have hlen : (natToLimbs (magValue a * magValue b)).length
            ≤ a.length + b.length :=
          natToLimbs_length_le _ _ hprod
        have hcanon := canonicalize_length_le
          (natToLimbs (magValue a * magValue b))
        simp only [byteSize] at *
        omega
  · intro a b hs
    unfold ecma_big_uint_mul
    rw [ecma_bigint_create_none _ hs]
  · intro v bits m hm
    unfold ecma_big_uint_shift_left at hm
    cases hc : ecma_bigint_create (byteSize v + 4 * (bits / 32 + 1)) with
    | none => rw [hc] at hm; exact Option.noConfusion hm
    | some buf =>
        rw [hc] at hm
        cases hm
        have hbuf := (ecma_bigint_create_some _ _ hc).1
        have hmax := (ecma_bigint_create_some _ _ hc).2
        have hshift : magValue v * 2 ^ bits
            < 2 ^ (32 * (v.length + (bits / 32 + 1))) := by
          have hb : 32 * v.length + bits
              ≤ 32 * (v.length + (bits / 32 + 1)) := by
            have hdm := Nat.div_add_mod bits 32
            have hml : bits % 32 < 32 := Nat.mod_lt _ (by norm_num)
            omega
          calc magValue v * 2 ^ bits
              < 2 ^ (32 * v.length) * 2 ^ bits :=
                (Nat.mul_lt_mul_right (Nat.pos_pow_of_pos _ (by norm_num))).mpr
                  (magValue_lt v)
            _ = 2 ^ (32 * v.length + bits) := by rw [← pow_add]
            _ ≤ 2 ^ (32 * (v.length + (bits / 32 + 1))) :=
                Nat.pow_le_pow_right (by norm_num) hb
        have hlen := natToLimbs_length_le _ _ hshift
        have hcanon := canonicalize_length_le
          (natToLimbs (magValue v * 2 ^ bits))
        simp only [byteSize] at *
        omega
  · intro v bits hs
    unfold ecma_big_uint_shift_left
    rw [ecma_bigint_create_none _ hs]

/-- C9 witness: an eight-byte allocation stays within the maximum, and
a request four bytes past the maximum fails. -/
theorem claim_C9_witness :
    byteSize (List.replicate 2 0) ≤ ECMA_BIGINT_MAX_SIZE
    ∧ ecma_bigint_create 0x10004 = none :=
  ⟨claim_C9.1 8 (List.replicate 2 0) rfl,
   claim_C9.2.1 0x10004 (by norm_num [ECMA_BIGINT_MAX_SIZE])⟩

/-- C1: when exactly one primitive operand is a BigInt and the other is
a non-BigInt, non-String primitive, the numeric dispatcher (whose only
two numeric paths are the both-BigInt branch and the to-number branch)
raises a TypeError for subtraction, multiplication, division and
remainder, before any arithmetic occurs, and never returns a numeric
value. -/
theorem claim_C1 (dv : ObjectDefaultValue) (op : number_arithmetic_op)
    (l r : ecma_value_t)
    (_hop : op = .subtraction ∨ op = .multiplication ∨ op = .division
         ∨ op = .remainder)
    (hmix : (ecma_is_value_bigint l = true
              ∧ isNonBigIntNonStringPrimitive r = true)
          ∨ (isNonBigIntNonStringPrimitive l = true
              ∧ ecma_is_value_bigint r = true)) :
    do_number_arithmetic dv op l r = .error .typeError := by
  rcases hmix with ⟨hl, hr⟩ | ⟨hl, hr⟩ <;>
    cases l <;> cases r <;>
      simp_all [do_number_arithmetic, do_number_arithmetic_values,
        ecma_op_to_number, ecma_is_value_bigint, isNonBigIntNonStringPrimitive,
        ecma_is_value_error]

/-- C1 witness: BigInt one minus the Number one is a TypeError. -/
theorem claim_C1_witness :
    do_number_arithmetic (fun _ _ => .undefined) .subtraction
        (.bigint 1) (.number (.fin 1)) = .error .typeError :=
  claim_C1 (fun _ _ => .undefined) .subtraction (.bigint 1) (.number (.fin 1))
    (Or.inl rfl) (Or.inl ⟨rfl, rfl⟩)

/-- C5: for non-Object, non-BigInt operands whose to-number coercions
succeed, do_number_arithmetic computes the operation on the coerced
doubles: subtraction, multiplication, IEEE division (no explicit
division-by-zero error) and IEEE remainder; in particular one divided
by zero is positive infinity and five remainder zero is not-a-number. -/
theorem claim_C5 (dv : ObjectDefaultValue) (l r : ecma_value_t) (a b : ENumber)
    (hl : ecma_is_value_object l = false) (hr : ecma_is_value_object r = false)
    (hbl : ecma_is_value_bigint l = false) (_hbr : ecma_is_value_bigint r = false)
    (ha : ecma_op_to_number l = .ok a) (hb : ecma_op_to_number r = .ok b) :
    do_number_arithmetic dv .subtraction l r = .number (ENumber.sub a b)
  ∧ do_number_arithmetic dv .multiplication l r = .number (ENumber.mul a b)
  ∧ do_number_arithmetic dv .division l r = .number (ENumber.div a b)
  ∧ do_number_arithmetic dv .remainder l r
      = .number (ecma_op_number_remainder a b)
  ∧ do_number_arithmetic dv .division (.number (.fin 1)) (.number (.fin 0))
      = .number (.inf false)
  ∧ do_number_arithmetic dv .remainder (.number (.fin 5)) (.number (.fin 0))
      = .number .nan := by
  have hg : (!ecma_is_value_bigint l || !ecma_is_value_bigint r) = true := by
    simp [hbl]
  refine ⟨?_, ?_, ?_, ?_, ?_, ?_⟩
  · rw [do_number_arithmetic_nonobject dv _ l r hl hr,
      do_number_arithmetic_values_num _ l r a b hg ha hb]
  · rw [do_number_arithmetic_nonobject dv _ l r hl hr,
      do_number_arithmetic_values_num _ l r a b hg ha hb]
  · rw [do_number_arithmetic_nonobject dv _ l r hl hr,
      do_number_arithmetic_values_num _ l r a b hg ha hb]
  · rw [do_number_arithmetic_nonobject dv _ l r hl hr,
      do_number_arithmetic_values_num _ l r a b hg ha hb]
  · rfl
  · rfl

/-- C5 witness: three minus two is one on concrete Number operands. -/
theorem claim_C5_witness :
    do_number_arithmetic (fun _ _ => .undefined) .subtraction
        (.number (.fin 3)) (.number (.fin 2)) = .number (.fin 1) := by
  have h := (claim_C5 (fun _ _ => .undefined) (.number (.fin 3))
      (.number (.fin 2)) (.fin 3) (.fin 2) rfl rfl rfl rfl rfl rfl).1
  rw [h]
  norm_num [ENumber.sub]

/-- C4: in opfunc_addition, when after coercion (with no type hint) at
least one primitive is a String, both primitives are coerced to String
and the result is the new concatenated String; a failure of the left
to-string coercion propagates the bare error signal, a failure of the
right one propagates the error after dereferencing the already-built
first string exactly once; concatenating the String x with the Number
five yields the String x5. -/
theorem claim_C4 :
    (∀ (dv : ObjectDefaultValue) (lv rv : ecma_value_t) (s1 s2 : String),
      ecma_is_value_object lv = false → ecma_is_value_object rv = false →
      (ecma_is_value_string lv || ecma_is_value_string rv) = true →
      ecma_op_to_string lv = some s1 → ecma_op_to_string rv = some s2 →
      opfunc_addition dv lv rv = .string (s1 ++ s2))
  ∧ (∀ (dv : ObjectDefaultValue) (lv rv : ecma_value_t),
      ecma_is_value_object lv = false → ecma_is_value_object rv = false →
      (ecma_is_value_string lv || ecma_is_value_string rv) = true →
      ecma_op_to_string lv = none →
      opfunc_addition dv lv rv = .error .propagated)
  ∧ (∀ (lv rv : ecma_value_t) (s1 : String) (fl fr : Bool),
      (ecma_is_value_string lv || ecma_is_value_string rv) = true →
      ecma_op_to_string lv = some s1 → ecma_op_to_string rv = none →
      (opfunc_addition_values_tr lv rv fl fr).1 = .error .propagated
        ∧ ((opfunc_addition_values_tr lv rv fl fr).2.count (Ev.derefStr s1)) = 1)
  ∧ (∀ dv : ObjectDefaultValue,
      opfunc_addition dv (.string "x") (.number (.fin 5)) = .string "x5") := by
  refine ⟨?_, ?_, ?_, ?_⟩
  · intro dv lv rv s1 s2 hol hor hs h1 h2
    rw [opfunc_addition_nonobject dv lv rv hol hor]
    simp [opfunc_addition_values, hs, h1, h2]
  · intro dv lv rv hol hor hs h1
    rw [opfunc_addition_nonobject dv lv rv hol hor]
    simp [opfunc_addition_values, hs, h1]
  · intro lv rv s1 fl fr hs h1 h2
    cases fl <;> cases fr <;>
      simp [opfunc_addition_values_tr, hs, h1, h2, freesIf, List.count_cons,
        List.count_append]
  · intro dv
    rfl

/-- C4 witness: concatenating two concrete strings through
opfunc_addition. -/
theorem claim_C4_witness :
    opfunc_addition (fun _ _ => .undefined) (.string "a") (.string "b")
      = .string "ab" :=
  claim_C4.1 (fun _ _ => .undefined) (.string "a") (.string "b") "a" "b"
    rfl rfl rfl rfl rfl

/-- Releases distribute over trace concatenation. -/
theorem freedValues_append (a b : List Ev) :
    freedValues (a ++ b) = freedValues a + freedValues b := by
  simp [freedValues, List.filterMap_append]

/-- A conditional release event releases exactly its value. -/
theorem freedValues_freesIf (b : Bool) (v : ecma_value_t) :
    freedValues (freesIf b v)
      = (if b then ({v} : Multiset ecma_value_t) else 0) := by
  cases b <;> rfl

/-- A collaborator-call event releases nothing. -/
theorem freedValues_dvCall (s : Side) (h : ecma_preferred_type_t) :
    freedValues [Ev.dvCall s h] = 0 := rfl

/-- A string-dereference event releases no coerced value. -/
theorem freedValues_derefStr (s : String) :
    freedValues [Ev.derefStr s] = 0 := rfl

/-- Collaborator calls distribute over trace concatenation. -/
theorem dvCalls_append (a b : List Ev) :
    dvCalls (a ++ b) = dvCalls a ++ dvCalls b := by
  simp [dvCalls, List.filter_append]

/-- A conditional release event is not a collaborator call. -/
theorem dvCalls_freesIf (b : Bool) (v : ecma_value_t) :
    dvCalls (freesIf b v) = [] := by
  cases b <;> rfl

/-- A string dereference is not a collaborator call. -/
theorem dvCalls_derefStr (s : String) : dvCalls [Ev.derefStr s] = [] := rfl

/-- The empty trace holds no collaborator call. -/
theorem dvCalls_nil : dvCalls [] = [] := rfl

/-- A collaborator call at the head of a trace is kept. -/
theorem dvCalls_cons_dvCall (s : Side) (h : ecma_preferred_type_t)
    (tr : List Ev) :
    dvCalls (Ev.dvCall s h :: tr) = Ev.dvCall s h :: dvCalls tr := rfl

/-- A release event at the head of a trace adds its value. -/
theorem freedValues_cons_free (v : ecma_value_t) (tr : List Ev) :
    freedValues (Ev.free v :: tr) = v ::ₘ freedValues tr := rfl

/-- A collaborator call at the head of a trace releases nothing. -/
theorem freedValues_cons_dvCall (s : Side) (h : ecma_preferred_type_t)
    (tr : List Ev) : freedValues (Ev.dvCall s h :: tr) = freedValues tr := rfl

/-- A string dereference at the head of a trace releases nothing. -/
theorem freedValues_cons_derefStr (s : String) (tr : List Ev) :
    freedValues (Ev.derefStr s :: tr) = freedValues tr := rfl

/-- The body of the traced opfunc_addition releases exactly the flagged
operands, each once, on every exit path. -/
theorem opfunc_addition_values_tr_frees (lv rv : ecma_value_t) (fl fr : Bool) :
    freedValues (opfunc_addition_values_tr lv rv fl fr).2
      = (if fl then ({lv} : Multiset ecma_value_t) else 0)
        + (if fr then ({rv} : Multiset ecma_value_t) else 0) := by
  by_cases h1 : (ecma_is_value_string lv || ecma_is_value_string rv) = true
  · rcases hsl : ecma_op_to_string lv with _ | s1
    · simp [opfunc_addition_values_tr, h1, hsl, freedValues_append,
        freedValues_freesIf]
    · rcases hsr : ecma_op_to_string rv with _ | s2
      · simp only [opfunc_addition_values_tr, h1, hsl, hsr, if_true,
          eq_self_iff_true]
        simp only [freedValues_append, freedValues_freesIf,
          freedValues_derefStr, add_zero]
        exact add_comm _ _
      · simp [opfunc_addition_values_tr, h1, hsl, hsr, freedValues_append,
          freedValues_cons_derefStr, freedValues_freesIf,
          freedValues_derefStr]
  · by_cases hb : (ecma_is_value_bigint lv && ecma_is_value_bigint rv) = true <;>
      simp [opfunc_addition_values_tr, h1, hb, freedValues_append,
        freedValues_freesIf]

/-- The body of the traced opfunc_addition never calls the object
default-value collaborator. -/
theorem opfunc_addition_values_tr_dvCalls (lv rv : ecma_value_t)
    (fl fr : Bool) :
    dvCalls (opfunc_addition_values_tr lv rv fl fr).2 = [] := by
  by_cases h1 : (ecma_is_value_string lv || ecma_is_value_string rv) = true
  · rcases hsl : ecma_op_to_string lv with _ | s1
    · simp [opfunc_addition_values_tr, h1, hsl, dvCalls_append,
        dvCalls_freesIf]
    · rcases hsr : ecma_op_to_string rv with _ | s2 <;>
        simp [opfunc_addition_values_tr, h1, hsl, hsr, dvCalls_append,
          dvCalls_freesIf, dvCalls_derefStr, dvCalls, isDvCall, freesIf]
  · by_cases hb : (ecma_is_value_bigint lv && ecma_is_value_bigint rv) = true <;>
      simp [opfunc_addition_values_tr, h1, hb, dvCalls_append, dvCalls_freesIf]

/-- The empty trace releases nothing. -/
theorem freedValues_nil : freedValues [] = 0 := rfl

/-- The error tag is recognized as an error signal. -/
theorem ecma_is_value_error_error (k : ErrorKind) :
    ecma_is_value_error (.error k) = true := rfl

/-- do_number_arithmetic releases every successfully coerced
intermediate exactly once on every exit path. -/
theorem do_number_arithmetic_tr_frees (dv : ObjectDefaultValue)
    (op : number_arithmetic_op) (l r : ecma_value_t) :
    freedValues (do_number_arithmetic_tr dv op l r).2
      = coercedOf dv .number l r := by
  cases l <;> cases r <;>
    simp only [do_number_arithmetic_tr, coercedOf, coercedIfOk] <;>
    (try split_ifs) <;>
    simp [freedValues_append, freedValues_freesIf, freedValues_cons_dvCall,
      freedValues_dvCall, freedValues_nil, Multiset.cons_zero]

/-- opfunc_addition releases every successfully coerced intermediate
exactly once on every exit path. -/
theorem opfunc_addition_tr_frees (dv : ObjectDefaultValue)
    (l r : ecma_value_t) :
    freedValues (opfunc_addition_tr dv l r).2 = coercedOf dv .no l r := by
  cases l <;> cases r <;>
    simp only [opfunc_addition_tr, coercedOf, coercedIfOk] <;>
    (try split_ifs) <;>
    simp [freedValues_append, freedValues_freesIf, freedValues_cons_dvCall,
      freedValues_dvCall, freedValues_nil, opfunc_addition_values_tr_frees,
      Multiset.cons_zero]

/-- opfunc_unary_operation releases its successfully coerced
intermediate exactly once on every exit path. -/
theorem opfunc_unary_operation_tr_frees (dv : ObjectDefaultValue)
    (l : ecma_value_t) (is_plus : Bool) :
    freedValues (opfunc_unary_operation_tr dv l is_plus).2
      = coercedIfOk dv .number l := by
  cases l <;>
    simp only [opfunc_unary_operation_tr, coercedIfOk] <;>
    (try split_ifs) <;>
    simp [freedValues_cons_dvCall, freedValues_cons_free, freedValues_dvCall,
      freedValues_nil, Multiset.cons_zero]

/-- C3: coercion of the left Object operand runs first; a failing left
coercion is returned at once, with no right collaborator call and
nothing released; a failing right coercion is returned after the left
coerced intermediate is released exactly once; on the success path the
left call precedes the right call and both intermediates are released;
and in all three handlers the multiset of released values is exactly
the multiset of successfully coerced intermediates, on every exit
path. -/
theorem claim_C3 :
    (∀ (dv : ObjectDefaultValue) (op : number_arithmetic_op) (o : Nat)
        (r : ecma_value_t) (k : ErrorKind),
      dv o .number = .error k →
      do_number_arithmetic_tr dv op (.object o) r
        = (.error k, [Ev.dvCall .lhs .number]))
  ∧ (∀ (dv : ObjectDefaultValue) (o : Nat) (r : ecma_value_t) (k : ErrorKind),
      dv o .no = .error k →
      opfunc_addition_tr dv (.object o) r = (.error k, [Ev.dvCall .lhs .no]))
  ∧ (∀ (dv : ObjectDefaultValue) (o : Nat) (is_plus : Bool) (k : ErrorKind),
      dv o .number = .error k →
      opfunc_unary_operation_tr dv (.object o) is_plus
        = (.error k, [Ev.dvCall .lhs .number]))
  ∧ (∀ (dv : ObjectDefaultValue) (op : number_arithmetic_op) (o o2 : Nat)
        (k : ErrorKind),
      ecma_is_value_error (dv o .number) = false →
      dv o2 .number = .error k →
      do_number_arithmetic_tr dv op (.object o) (.object o2)
        = (.error k, [Ev.dvCall .lhs .number, Ev.dvCall .rhs .number,
            Ev.free (dv o .number)]))
  ∧ (∀ (dv : ObjectDefaultValue) (o o2 : Nat) (k : ErrorKind),
      ecma_is_value_error (dv o .no) = false →
      dv o2 .no = .error k →
      opfunc_addition_tr dv (.object o) (.object o2)
        = (.error k, [Ev.dvCall .lhs .no, Ev.dvCall .rhs .no,
            Ev.free (dv o .no)]))
  ∧ (∀ (dv : ObjectDefaultValue) (op : number_arithmetic_op) (o o2 : Nat),
      ecma_is_value_error (dv o .number) = false →
      ecma_is_value_error (dv o2 .number) = false →
      (do_number_arithmetic_tr dv op (.object o) (.object o2)).2
        = [Ev.dvCall .lhs .number, Ev.dvCall .rhs .number,
           Ev.free (dv o .number), Ev.free (dv o2 .number)])
  ∧ (∀ (dv : ObjectDefaultValue) (o o2 : Nat),
      ecma_is_value_error (dv o .no) = false →
      ecma_is_value_error (dv o2 .no) = false →
      dvCalls (opfunc_addition_tr dv (.object o) (.object o2)).2
        = [Ev.dvCall .lhs .no, Ev.dvCall .rhs .no])
  ∧ (∀ (dv : ObjectDefaultValue) (op : number_arithmetic_op)
        (l r : ecma_value_t),
      freedValues (do_number_arithmetic_tr dv op l r).2
        = coercedOf dv .number l r)
  ∧ (∀ (dv : ObjectDefaultValue) (l r : ecma_value_t),
      freedValues (opfunc_addition_tr dv l r).2 = coercedOf dv .no l r)
  ∧ (∀ (dv : ObjectDefaultValue) (l : ecma_value_t) (is_plus : Bool),
      freedValues (opfunc_unary_operation_tr dv l is_plus).2
        = coercedIfOk dv .number l) := by
  refine ⟨?_, ?_, ?_, ?_, ?_, ?_, ?_, ?_, ?_, ?_⟩
  · intro dv op o r k h
    simp [do_number_arithmetic_tr, h, ecma_is_value_error]
  · intro dv o r k h
    simp [opfunc_addition_tr, h, ecma_is_value_error]
  · intro dv o is_plus k h
    simp [opfunc_unary_operation_tr, h, ecma_is_value_error]
  · intro dv op o o2 k hne h2
    simp [do_number_arithmetic_tr, hne, h2, ecma_is_value_error_error, freesIf]
  · intro dv o o2 k hne h2
    simp [opfunc_addition_tr, hne, h2, ecma_is_value_error_error, freesIf]
  · intro dv op o o2 hne1 hne2
    simp [do_number_arithmetic_tr, hne1, hne2, freesIf]
  · intro dv o o2 hne1 hne2
    simp [opfunc_addition_tr, hne1, hne2, dvCalls_append, dvCalls_cons_dvCall,
      dvCalls_nil, opfunc_addition_values_tr_dvCalls]
  · exact do_number_arithmetic_tr_frees
  · exact opfunc_addition_tr_frees
  · exact opfunc_unary_operation_tr_frees

/-- C3 witness: a failing left coercion is returned at once, after a
single left collaborator call, with nothing released. -/
theorem claim_C3_witness :
    do_number_arithmetic_tr (fun _ _ => .error .typeError) .subtraction
        (.object 0) .undefined
      = (.error .typeError, [Ev.dvCall .lhs .number]) :=
  claim_C3.1 (fun _ _ => .error .typeError) .subtraction 0 .undefined
    .typeError rfl
